import Mathlib

/-!
# Todo CRUD synchronization contract — verification development

A shallow embedding of the todo application's server route handlers
(`src/app/api/todos/route.js`, the `[id]` route), its mongoose model
(`src/models/Todo.js`), its auth helpers (`src/lib/auth.js`), and the
client sync engine of the authenticated page component
(`fetchTodos` / `addTodo` / `updateTodo` / `deleteTodo` / `calculateStats`).

Modelling conventions:
* Timestamps are `Nat` (milliseconds); `Date.now()` values are passed in as
  explicit `now` arguments.
* MongoDB documents are `TodoDoc` records.  The document store is external;
  it is modelled as a `List TodoDoc`, with the query combinators
  (`find`, `findOne`, `findOneAndUpdate`, `findOneAndDelete`) given their
  standard first-match semantics.  A filter field matches a document only if
  the document carries that field with an equal value.
* JSON request bodies are association lists `List (String × BVal)`;
  mongoose's strict mode means only declared schema paths of the body are
  ever read.  Casting follows mongoose's `Boolean`/`String` cast rules;
  dates are modelled as numeric timestamps (string date literals are
  outside the model).
* JS string primitives used by the auth helpers are modelled on the
  character list underlying the string.
-/

/-- A JSON scalar value appearing in a request body. -/
inductive BVal where
  | str (s : String)
  | num (n : Nat)
  | bool (b : Bool)
deriving Repr, DecidableEq

/-- A JSON request body: an association list of field names to values. -/
abbrev Payload := List (String × BVal)

/-- A MongoDB document in the `todos` collection.  `ownerId` models the
`userId` field: `none` when the document does not carry the field.
The spec calls this field `ownerId`. -/
structure TodoDoc where
  id : String
  title : String
  description : Option String
  completed : Bool
  createdAt : Nat
  updatedAt : Nat
  ownerId : Option String
deriving Repr, DecidableEq

/-- The field names of the underlying MongoDB document of an entity
persisted through the Todo model: optional schema paths (`description`)
and the owner field (`userId`) appear only when set, and the schema keeps
the default `versionKey`, so the mongoose version key `__v` is stamped at
creation and survives updates. -/
def docFields (d : TodoDoc) : List String :=
  ["_id", "title"]
    ++ (match d.description with | some _ => ["description"] | none => [])
    ++ ["completed", "createdAt", "updatedAt", "__v"]
    ++ (match d.ownerId with | some _ => ["userId"] | none => [])

/-- The paths declared by `TodoSchema` in `src/models/Todo.js`. -/
def schemaPaths : List String :=
  ["title", "description", "completed", "createdAt", "updatedAt"]

/-- Mongoose `Boolean` cast: accepts booleans, `0`/`1`, and the strings
`"true"`/`"false"`/`"0"`/`"1"`/`"yes"`/`"no"`; anything else is a cast
error. -/
def castBool : BVal → Except String Bool
  | .bool b => .ok b
  | .num 0 => .ok false
  | .num 1 => .ok true
  | .num _ => .error "CastError: Boolean"
  | .str "true" => .ok true
  | .str "false" => .ok false
  | .str "1" => .ok true
  | .str "0" => .ok false
  | .str "yes" => .ok true
  | .str "no" => .ok false
  | .str _ => .error "CastError: Boolean"

/-- Mongoose `String` cast: scalars stringify. -/
def castString : BVal → String
  | .str s => s
  | .num n => toString n
  | .bool b => if b then "true" else "false"

/-- Mongoose `Date` cast, with dates as numeric timestamps. -/
def castDate : BVal → Except String Nat
  | .num n => .ok n
  | _ => .error "CastError: Date"

/-- JS `String.prototype.trim` / the mongoose `trim` setter, modelled on
the character list so that it evaluates by reduction. -/
def jsTrim (s : String) : String :=
  ⟨((s.data.dropWhile Char.isWhitespace).reverse.dropWhile
      Char.isWhitespace).reverse⟩

/-- Title path on create: trim setter, then the `required` validator, which
rejects a missing title and an empty string alike. -/
def createTitle (body : Payload) : Except String String :=
  match body.lookup "title" with
  | none => .error "ValidationError: title is required"
  | some v =>
    let t := jsTrim (castString v)
    if t = "" then .error "ValidationError: title is required" else .ok t

/-- Completed path on create: `default: false`. -/
def createCompleted (body : Payload) : Except String Bool :=
  match body.lookup "completed" with
  | none => .ok false
  | some v => castBool v

/-- CreatedAt path on create: `default: Date.now`, but a supplied value is a
declared path and is used. -/
def createCreatedAt (body : Payload) (now : Nat) : Except String Nat :=
  match body.lookup "createdAt" with
  | none => .ok now
  | some v => castDate v

/-- Description path on create: optional, trimmed. -/
def createDescription (body : Payload) : Option String :=
  (body.lookup "description").map (fun v => jsTrim (castString v))

/-- Model of `Todo.create`: strict mode reads only declared schema paths of the
body; the pre-save hook overwrites `updatedAt` with the current time.
`userId` is not a declared path of `TodoSchema`, so strict mode discards
it and the stored document carries no owner field. -/
def todoCreate (body : Payload) (now : Nat) (newId : String) :
    Except String TodoDoc :=
  match createTitle body, createCompleted body, createCreatedAt body now with
  | .ok t, .ok c, .ok ca =>
    .ok { id := newId, title := t, description := createDescription body,
          completed := c, createdAt := ca, updatedAt := now, ownerId := none }
  | .error e, _, _ => .error e
  | _, .error e, _ => .error e
  | _, _, .error e => .error e

/-- Hexadecimal character test. -/
def isHexChar (c : Char) : Bool :=
  c.isDigit || ('a' ≤ c && c ≤ 'f') || ('A' ≤ c && c ≤ 'F')

/-- Model of `mongoose.Types.ObjectId.isValid`: a 24-character hex string or a
12-character string. -/
def isValidObjectId (s : String) : Bool :=
  (s.data.length == 24 && s.data.all isHexChar) || s.data.length == 12

/-- Mongoose `ObjectId` cast of an update value: a well-formed id string;
anything else is a cast error. -/
def castObjectId : BVal → Except String String
  | .str s => if isValidObjectId s then .ok s else .error "CastError: ObjectId"
  | _ => .error "CastError: ObjectId"

/-- The cast update document `{ ...body, updatedAt: Date.now() }` of the
`PUT` handler, after strict mode keeps only declared schema paths (plus
`_id`); `updatedAt` is always the handler timestamp and is carried
separately. -/
structure UpdateDoc where
  idSet : Option String
  title : Option String
  description : Option String
  completed : Option Bool
  createdAt : Option Nat
deriving Repr, DecidableEq

/-- Id path of an update body: `_id` is a schema path, so a supplied value
is cast to an `ObjectId` before the query. -/
def updIdSet (body : Payload) : Except String (Option String) :=
  match body.lookup "_id" with
  | none => .ok none
  | some v => (castObjectId v).map some

/-- Title path of an update body (`runValidators: true`): trim setter,
then the `required` validator re-runs on the supplied value. -/
def updTitleSet (body : Payload) : Except String (Option String) :=
  match body.lookup "title" with
  | none => .ok none
  | some v =>
    let t := jsTrim (castString v)
    if t = "" then .error "ValidationError: title is required"
    else .ok (some t)

/-- Completed path of an update body. -/
def updCompletedSet (body : Payload) : Except String (Option Bool) :=
  match body.lookup "completed" with
  | none => .ok none
  | some v => (castBool v).map some

/-- CreatedAt path of an update body: a declared schema path, so a
supplied value is cast and applied (nothing marks it immutable). -/
def updCreatedAtSet (body : Payload) : Except String (Option Nat) :=
  match body.lookup "createdAt" with
  | none => .ok none
  | some v => (castDate v).map some

/-- Description path of an update body. -/
def updDescriptionSet (body : Payload) : Option String :=
  (body.lookup "description").map (fun v => jsTrim (castString v))

/-- Casting and update validation of the update document, which mongoose
performs client-side before the query is sent: an uncastable value or a
validation-failing title rejects the call even when no document would
match the filter. -/
def castUpdate (body : Payload) : Except String UpdateDoc :=
  match updIdSet body, updTitleSet body, updCompletedSet body,
      updCreatedAtSet body with
  | .ok i, .ok t, .ok c, .ok ca =>
    .ok { idSet := i, title := t, description := updDescriptionSet body,
          completed := c, createdAt := ca }
  | .error e, _, _, _ => .error e
  | _, .error e, _, _ => .error e
  | _, _, .error e, _ => .error e
  | _, _, _, .error e => .error e

/-- Application of a cast update document to a matched document: supplied
paths are set, the rest keep their prior values, `updatedAt` is the
handler timestamp, and `_id`/`userId` are never written. -/
def mergeUpdate (d : TodoDoc) (upd : UpdateDoc) (now : Nat) : TodoDoc :=
  { id := d.id,
    title := upd.title.getD d.title,
    description := match upd.description with
      | some s => some s
      | none => d.description,
    completed := upd.completed.getD d.completed,
    createdAt := upd.createdAt.getD d.createdAt,
    updatedAt := now,
    ownerId := d.ownerId }

/-- The server-side application of the update to the matched document:
setting `_id` to a different value alters an immutable field and makes
the call fail (caught as 400); setting it to the same value is a no-op. -/
def applyUpdateDoc (d : TodoDoc) (upd : UpdateDoc) (now : Nat) :
    Except String TodoDoc :=
  match upd.idSet with
  | some i =>
    if i = d.id then .ok (mergeUpdate d upd now)
    else .error "MongoServerError: the immutable field _id was altered"
  | none => .ok (mergeUpdate d upd now)

/-- The full effect of the `PUT` update document on a matched document:
client-side cast and update validation, then the server-side
application. -/
def todoApplyUpdate (d : TodoDoc) (body : Payload) (now : Nat) :
    Except String TodoDoc :=
  match castUpdate body with
  | .error e => .error e
  | .ok upd => applyUpdateDoc d upd now

/-- The uniform response envelope payload. -/
inductive RData where
  | list (ts : List TodoDoc)
  | doc (t : TodoDoc)
  | obj
deriving Repr, DecidableEq

/-- An HTTP response: status code plus the `{success, data?, error?}`
envelope. -/
structure Response where
  status : Nat
  success : Bool
  data : Option RData
  error : Option String
deriving Repr, DecidableEq

def unauthorizedResp : Response :=
  { status := 401, success := false, data := none, error := some "Unauthorized" }

def invalidIdResp : Response :=
  { status := 400, success := false, data := none, error := some "Invalid ID format" }

def notFoundResp : Response :=
  { status := 404, success := false, data := none, error := some "Todo not found" }

def okDocResp (d : TodoDoc) : Response :=
  { status := 200, success := true, data := some (.doc d), error := none }

/-- The ownership filter `{ _id: id, userId: user.userId }` used by the
authenticated `[id]` route: a document matches only if it carries the
owner field with the caller's identifier. -/
def ownedFilter (id : String) (u : String) (d : TodoDoc) : Bool :=
  d.id == id && d.ownerId == some u

/-- Model of the server side of `Todo.findOneAndUpdate` with `new: true`:
apply the already-cast update to the first matching document, in place.
A server-side failure (the immutable `_id` altered on a matched document)
leaves the store unchanged; an unmatched filter returns nothing without
error. -/
def storeFindOneAndUpdate (pred : TodoDoc → Bool) (upd : UpdateDoc)
    (now : Nat) :
    List TodoDoc → Except String (Option (TodoDoc × List TodoDoc))
  | [] => .ok none
  | x :: xs =>
    if pred x then
      (applyUpdateDoc x upd now).map (fun x' => some (x', x' :: xs))
    else
      (storeFindOneAndUpdate pred upd now xs).map
        (Option.map (fun p => (p.1, x :: p.2)))

namespace Api.TodoById

/-- Handler `GET /api/todos/[id]` (authenticated variant): 401 without a resolved
user, 400 on a malformed id, then `findOne({ _id, userId })`. -/
def GET (user : Option String) (id : String) (store : List TodoDoc) :
    Response :=
  match user with
  | none => unauthorizedResp
  | some u =>
    if !isValidObjectId id then invalidIdResp
    else
      match store.find? (ownedFilter id u) with
      | none => notFoundResp
      | some d => okDocResp d

/-- Handler `PUT /api/todos/[id]` (authenticated variant):
`findOneAndUpdate({ _id, userId }, { ...body, updatedAt: Date.now() },
{ new: true, runValidators: true })`.  Mongoose casts the update document
and runs the update validators before the query, so those failures are
thrown regardless of whether any document matches; every thrown error is
caught and mapped to 400. -/
def PUT (user : Option String) (id : String) (body : Payload) (now : Nat)
    (store : List TodoDoc) : Response × List TodoDoc :=
  match user with
  | none => (unauthorizedResp, store)
  | some u =>
    if !isValidObjectId id then (invalidIdResp, store)
    else
      match castUpdate body with
      | .error msg =>
        ({ status := 400, success := false, data := none, error := some msg },
         store)
      | .ok upd =>
        match storeFindOneAndUpdate (ownedFilter id u) upd now store with
        | .error msg =>
          ({ status := 400, success := false, data := none,
             error := some msg }, store)
        | .ok none => (notFoundResp, store)
        | .ok (some (d', store')) => (okDocResp d', store')

/-- Handler `DELETE /api/todos/[id]` (authenticated variant):
`findOneAndDelete({ _id, userId })`; success responds `{ data: {} }`. -/
def DELETE (user : Option String) (id : String) (store : List TodoDoc) :
    Response × List TodoDoc :=
  match user with
  | none => (unauthorizedResp, store)
  | some u =>
    if !isValidObjectId id then (invalidIdResp, store)
    else
      match store.find? (ownedFilter id u) with
      | none => (notFoundResp, store)
      | some _ =>
        ({ status := 200, success := true, data := some .obj, error := none },
         store.eraseP (ownedFilter id u))

end Api.TodoById

/-- Object spread `{ ...body, userId: user.userId }`, the handler's value
for the key winning over any client-supplied one.  Since `List.lookup`
takes the first binding, the overriding binding is placed at the head. -/
def assocSet (m : Payload) (k : String) (v : BVal) : Payload :=
  (k, v) :: m

/-- Sort key of `.sort({ createdAt: -1 })`: newest first. -/
def createdDesc (a b : TodoDoc) : Prop := b.createdAt ≤ a.createdAt

instance : DecidableRel createdDesc := fun a b => by
  unfold createdDesc; infer_instance

instance : IsTotal TodoDoc createdDesc :=
  ⟨fun a b => Nat.le_total b.createdAt a.createdAt⟩

instance : IsTrans TodoDoc createdDesc :=
  ⟨fun _ _ _ h1 h2 => Nat.le_trans h2 h1⟩

namespace Auth

/-- JS `String.prototype.startsWith`, on the character list. -/
def strStartsWith (s p : String) : Bool :=
  s.data.take p.data.length == p.data

/-- JS `String.prototype.substring(n)`, on the character list. -/
def strDropChars (s : String) (n : Nat) : String :=
  ⟨s.data.drop n⟩

/-- One entry of the cookie header: the entry is trimmed and split on the
equals sign, keeping the key and (when present) the value. -/
def parseCookieEntry (c : String) : String × Option String :=
  let parts := (jsTrim c).splitOn "="
  (parts.headD "", parts[1]?)

/-- The `token` cookie, last assignment winning, `none` when the key is
absent or has no value. -/
def cookieToken (c : String) : Option String :=
  match ((c.splitOn ";").map parseCookieEntry).reverse.find?
      (fun p => p.1 == "token") with
  | some p => p.2
  | none => none

/-- Model of `getTokenFromRequest` (`src/lib/auth.js`): the `Authorization: Bearer`
header first, then the `token` cookie. -/
def getTokenFromRequest (authHeader cookieHeader : Option String) :
    Option String :=
  match authHeader with
  | some h =>
    if strStartsWith h "Bearer " then some (strDropChars h 7)
    else
      match cookieHeader with
      | some c => cookieToken c
      | none => none
  | none =>
    match cookieHeader with
    | some c => cookieToken c
    | none => none

/-- Model of `getUserFromToken`: a falsy token (absent or empty) resolves to no
user; otherwise the external `verifyToken` decides.  The resolved
principal is its `userId`. -/
def getUserFromToken (verify : String → Option String)
    (token : Option String) : Option String :=
  match token with
  | none => none
  | some t => if t = "" then none else verify t

end Auth

namespace Api.Todos

/-- Handler `GET /api/todos` (authenticated variant, `route.js`): resolve the
principal, 401 before any store access when none, otherwise
`Todo.find({ userId: user.userId }).sort({ createdAt: -1 })`.  The boolean
records whether the store was queried. -/
def GET (verify : String → Option String)
    (authHeader cookieHeader : Option String) (store : List TodoDoc) :
    Response × Bool :=
  match Auth.getUserFromToken verify
      (Auth.getTokenFromRequest authHeader cookieHeader) with
  | none => (unauthorizedResp, false)
  | some u =>
    ({ status := 200, success := true,
       data := some (.list (List.insertionSort createdDesc
         (store.filter (fun d => d.ownerId == some u)))),
       error := none }, true)

/-- Handler `POST /api/todos` (authenticated variant, `route.js`):
`Todo.create({ ...body, userId: user.userId })`, 201 with the persisted
entity; a thrown validation error is caught and mapped to 400. -/
def POST (user : Option String) (body : Payload) (now : Nat)
    (newId : String) (store : List TodoDoc) : Response × List TodoDoc :=
  match user with
  | none => (unauthorizedResp, store)
  | some u =>
    match todoCreate (assocSet body "userId" (.str u)) now newId with
    | .error msg =>
      ({ status := 400, success := false, data := none, error := some msg },
       store)
    | .ok d =>
      ({ status := 201, success := true, data := some (.doc d), error := none },
       store ++ [d])

end Api.Todos

/-! ## Client sync engine

The authenticated `Home` page component: local list state, derived stats,
`fetchTodos` with retry, and the optimistic `addTodo` / `updateTodo` /
`deleteTodo` handlers.  Server interaction is an explicit reply argument;
state transitions mirror each `setTodos` / `calculateStats` /
`showNotification` / `logout` call.  Only error-type notifications are
recorded (success toasts are presentational). -/

/-- The derived statistics `{ total, completed, pending }`. -/
structure Stats where
  total : Nat
  completed : Nat
  pending : Nat
deriving Repr, DecidableEq

/-- Model of `calculateStats`. -/
def calculateStats (todoList : List TodoDoc) : Stats :=
  let total := todoList.length
  let completed := (todoList.filter (fun todo => todo.completed)).length
  { total := total, completed := completed, pending := total - completed }

/-- The client component's state: the local list, its derived stats,
whether `logout()` has been called, and the error notifications shown. -/
structure ClientState where
  todos : List TodoDoc
  stats : Stats
  loggedOut : Bool
  errNotices : List String
deriving Repr, DecidableEq

/-- The server's reply to a mutation request, as the client classifies it. -/
inductive ServerReply where
  | ok (t : TodoDoc)
  | unauthorized
  | httpError (status : Nat)
  | envelopeFail (msg : String)
  | netError
deriving Repr, DecidableEq

/-- Replies on which the mutation handlers take their failure paths. -/
def ServerReply.isFailure : ServerReply → Bool
  | .ok _ => false
  | _ => true

/-- The optimistic client-side merge `{ ...todo, ...todoData, updatedAt }`
restricted to the entity's fields (ill-typed patch values are outside the
model). -/
def applyPatch (t : TodoDoc) (patch : Payload) (localNow : Nat) : TodoDoc :=
  { t with
    title := match patch.lookup "title" with
      | some (.str s) => s
      | _ => t.title,
    description := match patch.lookup "description" with
      | some (.str s) => some s
      | _ => t.description,
    completed := match patch.lookup "completed" with
      | some (.bool b) => b
      | _ => t.completed,
    updatedAt := localNow }

/-- Model of `updateTodo` of the authenticated page: snapshot, optimistic map,
request, then commit from the closure-captured original list or roll the
snapshot back.  Returns the final state and the `success` flag. -/
def updateTodo (st : ClientState) (id : String) (todoData : Payload)
    (localNow : Nat) (reply : ServerReply) : ClientState × Bool :=
  if id = "" then
    ({ st with errNotices := "Invalid todo ID" :: st.errNotices }, false)
  else
    let originalTodos := st.todos
    let updatedTodos := originalTodos.map
      (fun todo => if todo.id == id then applyPatch todo todoData localNow else todo)
    let stOpt : ClientState :=
      { st with todos := updatedTodos, stats := calculateStats updatedTodos }
    match reply with
    | .unauthorized =>
      ({ stOpt with
          loggedOut := true,
          errNotices := "Session expired. Please login again." :: stOpt.errNotices,
          todos := originalTodos,
          stats := calculateStats originalTodos }, false)
    | .ok t =>
      let finalTodos := originalTodos.map
        (fun todo => if todo.id == id then t else todo)
      ({ stOpt with todos := finalTodos, stats := calculateStats finalTodos },
       true)
    | .httpError s =>
      ({ stOpt with
          todos := originalTodos,
          stats := calculateStats originalTodos,
          errNotices := ("HTTP " ++ toString s ++ ": Failed to update todo")
            :: stOpt.errNotices }, false)
    | .envelopeFail msg =>
      ({ stOpt with
          todos := originalTodos,
          stats := calculateStats originalTodos,
          errNotices := msg :: stOpt.errNotices }, false)
    | .netError =>
      ({ stOpt with
          todos := originalTodos,
          stats := calculateStats originalTodos,
          errNotices := "Failed to update todo. Please try again."
            :: stOpt.errNotices }, false)

/-- The result of one `addTodo` call.  `listAtRequest` is the value the
local list holds at the moment the `POST` request is issued (`none` when
the title guard fails and no request is made): `addTodo` performs no
`setTodos` before its `fetch`. -/
structure AddResult where
  listAtRequest : Option (List TodoDoc)
  state : ClientState
  ok : Bool
deriving Repr, DecidableEq

/-- Model of `addTodo` of the authenticated page: guard on a present, non-blank
title, issue the request, and only then prepend the server-confirmed
entity on success; failures leave the list untouched. -/
def addTodo (st : ClientState) (todoData : Payload) (reply : ServerReply) :
    AddResult :=
  let titleOk := match todoData.lookup "title" with
    | some (.str s) => jsTrim s != ""
    | _ => false
  if !titleOk then
    { listAtRequest := none,
      state := { st with errNotices := "Todo title is required" :: st.errNotices },
      ok := false }
  else
    match reply with
    | .unauthorized =>
      { listAtRequest := some st.todos,
        state := { st with
          loggedOut := true,
          errNotices := "Session expired. Please login again." :: st.errNotices },
        ok := false }
    | .ok t =>
      let newTodos := t :: st.todos
      { listAtRequest := some st.todos,
        state := { st with todos := newTodos, stats := calculateStats newTodos },
        ok := true }
    | .httpError s =>
      { listAtRequest := some st.todos,
        state := { st with
          errNotices := ("HTTP " ++ toString s ++ ": Failed to create todo")
            :: st.errNotices },
        ok := false }
    | .envelopeFail msg =>
      { listAtRequest := some st.todos,
        state := { st with errNotices := msg :: st.errNotices },
        ok := false }
    | .netError =>
      { listAtRequest := some st.todos,
        state := { st with
          errNotices := "Failed to create todo. Please try again."
            :: st.errNotices },
        ok := false }

/-- The server's reply to one `fetchTodos` attempt, as the client
classifies it. -/
inductive FetchOutcome where
  | ok (ts : List TodoDoc)
  | unauthorized
  | notFound
  | httpErr (status : Nat)
  | envelopeFail (msg : String)
  | netErr
deriving Repr, DecidableEq

/-- The observable outcome of a `fetchTodos` call: the final state, the
backoff delays scheduled between attempts, and the number of attempts. -/
structure FetchResult where
  state : ClientState
  delays : List Nat
  attempts : Nat
deriving Repr, DecidableEq

/-- Model of `fetchTodos(retryCount)` of the authenticated page, with the reply to
attempt number `r` given by `outs r`: a 401 logs out, a network error with
`retryCount < 2` schedules `fetchTodos(retryCount + 1)` after
`1000 * (retryCount + 1)` ms, and any surfaced failure other than 401/404
falls back to the empty list. -/
def fetchTodos (outs : Nat → FetchOutcome) (r : Nat) (st : ClientState) :
    FetchResult :=
  match outs r with
  | .ok ts =>
    { state := { st with todos := ts, stats := calculateStats ts },
      delays := [], attempts := 1 }
  | .unauthorized =>
    { state := { st with
        loggedOut := true,
        errNotices := "Session expired. Please login again." :: st.errNotices },
      delays := [], attempts := 1 }
  | .notFound =>
    { state := { st with
        errNotices :=
          "API endpoint not found. Please check your server configuration."
            :: st.errNotices },
      delays := [], attempts := 1 }
  | .httpErr s =>
    { state := { st with
        errNotices := ("HTTP " ++ toString s ++ ": Failed to fetch todos")
          :: st.errNotices,
        todos := [], stats := calculateStats [] },
      delays := [], attempts := 1 }
  | .envelopeFail msg =>
    { state := { st with
        errNotices := msg :: st.errNotices,
        todos := [], stats := calculateStats [] },
      delays := [], attempts := 1 }
  | .netErr =>
    if h : r < 2 then
      let rest := fetchTodos outs (r + 1) st
      { state := rest.state,
        delays := 1000 * (r + 1) :: rest.delays,
        attempts := rest.attempts + 1 }
    else
      { state := { st with
          errNotices :=
            "Network error. Please check your connection and try again."
              :: st.errNotices,
          todos := [], stats := calculateStats [] },
        delays := [], attempts := 1 }
termination_by 2 - r
decreasing_by simp_wf; omega

/-! ## Claims -/

/-- C5: for every local todo list and every Update issued by the client
sync engine, if the server request fails (network error, non-OK status,
failed envelope, or 401) then after the rollback the local list equals the
pre-update snapshot exactly, and the derived counts are recomputed from
that restored list. -/
theorem C5_update_rollback (st : ClientState) (id : String)
    (todoData : Payload) (localNow : Nat) (reply : ServerReply)
    (hid : id ≠ "") (hfail : reply.isFailure = true) :
    (updateTodo st id todoData localNow reply).1.todos = st.todos ∧
    (updateTodo st id todoData localNow reply).1.stats
      = calculateStats st.todos := by
  cases reply <;> simp_all [updateTodo, ServerReply.isFailure]

/-- Witness for C5 at a concrete state and a concrete failing reply. -/
theorem C5_witness :
    (updateTodo
        ⟨[⟨"aaaaaaaaaaaa", "t", none, false, 3, 3, none⟩], ⟨1, 0, 1⟩, false, []⟩
        "aaaaaaaaaaaa" [("completed", BVal.bool true)] 9 .netError).1.todos
      = [⟨"aaaaaaaaaaaa", "t", none, false, 3, 3, none⟩] ∧
    (updateTodo
        ⟨[⟨"aaaaaaaaaaaa", "t", none, false, 3, 3, none⟩], ⟨1, 0, 1⟩, false, []⟩
        "aaaaaaaaaaaa" [("completed", BVal.bool true)] 9 .netError).1.stats
      = calculateStats [⟨"aaaaaaaaaaaa", "t", none, false, 3, 3, none⟩] :=
  C5_update_rollback _ _ _ _ _ (by decide) (by decide)

/-- C6 counterexample: the claim says `addTodo` prepends a synthesized
temporary placeholder entity to the local list before issuing the server
request, so the list at request time would have to hold one more entity
than before the call.  On the empty list with a valid payload it would
have to hold exactly one entity; in the code no `setTodos` happens before
the `fetch`, and the list at request time is still empty. -/
theorem C6_counterexample :
    (addTodo ⟨[], ⟨0, 0, 0⟩, false, []⟩ [("title", BVal.str "Buy milk")]
        (.ok ⟨"aaaaaaaaaaaa", "Buy milk", none, false, 10, 10, none⟩)).listAtRequest
      = some ([] : List TodoDoc) ∧
    ((addTodo ⟨[], ⟨0, 0, 0⟩, false, []⟩ [("title", BVal.str "Buy milk")]
        (.ok ⟨"aaaaaaaaaaaa", "Buy milk", none, false, 10, 10, none⟩)).listAtRequest.getD []).length
      ≠ ([] : List TodoDoc).length + 1 := by
  constructor
  · rfl
  · decide

/-- C6 amended: `addTodo` does not modify the local list before
issuing the server request (the list at request time equals the pre-call
list); on success the server-confirmed entity is prepended, the list
length grows by exactly one and the counts are recomputed; on failure the
local list is exactly the pre-call list. -/
theorem C6_amended (st : ClientState) (todoData : Payload)
    (reply : ServerReply) (s : String)
    (htitle : todoData.lookup "title" = some (.str s)) (hs : jsTrim s ≠ "") :
    (addTodo st todoData reply).listAtRequest = some st.todos ∧
    (∀ t, reply = .ok t →
      (addTodo st todoData reply).state.todos = t :: st.todos ∧
      (addTodo st todoData reply).state.todos.length = st.todos.length + 1 ∧
      (addTodo st todoData reply).state.stats = calculateStats (t :: st.todos)) ∧
    (reply.isFailure = true →
      (addTodo st todoData reply).state.todos = st.todos ∧
      (addTodo st todoData reply).state.stats = st.stats) := by
  cases reply <;> simp_all [addTodo, ServerReply.isFailure]

/-- Witness for the amended C6 at a concrete success and a concrete
failure. -/
theorem C6_amended_witness :
    ((addTodo ⟨[], ⟨0, 0, 0⟩, false, []⟩ [("title", BVal.str "Buy milk")]
        (.ok ⟨"aaaaaaaaaaaa", "Buy milk", none, false, 10, 10, none⟩)).state.todos
      = [⟨"aaaaaaaaaaaa", "Buy milk", none, false, 10, 10, none⟩]) ∧
    ((addTodo ⟨[], ⟨0, 0, 0⟩, false, []⟩ [("title", BVal.str "Buy milk")]
        .netError).state.todos = []) :=
  ⟨((C6_amended ⟨[], ⟨0, 0, 0⟩, false, []⟩ [("title", BVal.str "Buy milk")]
      (.ok ⟨"aaaaaaaaaaaa", "Buy milk", none, false, 10, 10, none⟩)
      "Buy milk" rfl (by decide)).2.1 _ rfl).1,
   ((C6_amended ⟨[], ⟨0, 0, 0⟩, false, []⟩ [("title", BVal.str "Buy milk")]
      .netError "Buy milk" rfl (by decide)).2.2 rfl).1⟩

/-- A `fetchTodos` call starting at retry count 2 makes one attempt. -/
theorem fetchTodos_attempts_two (outs : Nat → FetchOutcome)
    (st : ClientState) : (fetchTodos outs 2 st).attempts ≤ 1 := by
  rw [fetchTodos]
  cases outs 2 <;> simp

/-- A `fetchTodos` call starting at retry count 1 makes at most two
attempts. -/
theorem fetchTodos_attempts_one (outs : Nat → FetchOutcome)
    (st : ClientState) : (fetchTodos outs 1 st).attempts ≤ 2 := by
  have h2 := fetchTodos_attempts_two outs st
  rw [fetchTodos]
  cases outs 1 <;> simp
  omega

/-- C8: when `fetchTodos` hits transient network errors it retries up
to 2 additional attempts with linearly increasing backoff delays (1000 ms,
2000 ms); after exhausting the retries it surfaces exactly one user-visible
failure notification and sets the local list to the empty list with all
counts zero; a 401 reply triggers logout with no retry; and no run ever
makes more than 3 attempts. -/
theorem C8_fetch_retry (st : ClientState) (outs : Nat → FetchOutcome) :
    ((outs 0 = .netErr ∧ outs 1 = .netErr ∧ outs 2 = .netErr) →
      fetchTodos outs 0 st =
        { state := { st with
            todos := [],
            stats := ⟨0, 0, 0⟩,
            errNotices :=
              "Network error. Please check your connection and try again."
                :: st.errNotices },
          delays := [1000, 2000], attempts := 3 }) ∧
    (outs 0 = .unauthorized →
      fetchTodos outs 0 st =
        { state := { st with
            loggedOut := true,
            errNotices := "Session expired. Please login again."
              :: st.errNotices },
          delays := [], attempts := 1 }) ∧
    (fetchTodos outs 0 st).attempts ≤ 3 := by
  refine ⟨?_, ?_, ?_⟩
  · rintro ⟨h0, h1, h2⟩
    rw [fetchTodos, h0]
    rw [fetchTodos, h1]
    rw [fetchTodos, h2]
    simp [calculateStats]
  · intro h0
    rw [fetchTodos, h0]
  · have h1 := fetchTodos_attempts_one outs st
    rw [fetchTodos]
    cases outs 0 <;> simp
    omega

/-- Witness for C8: an all-network-error run and a 401 run from a concrete
state. -/
theorem C8_witness :
    fetchTodos (fun _ => .netErr) 0 ⟨[], ⟨0, 0, 0⟩, false, []⟩ =
      { state := ⟨[], ⟨0, 0, 0⟩, false,
          ["Network error. Please check your connection and try again."]⟩,
        delays := [1000, 2000], attempts := 3 } ∧
    fetchTodos (fun _ => .unauthorized) 0 ⟨[], ⟨0, 0, 0⟩, false, []⟩ =
      { state := ⟨[], ⟨0, 0, 0⟩, true,
          ["Session expired. Please login again."]⟩,
        delays := [], attempts := 1 } :=
  ⟨(C8_fetch_retry _ _).1 ⟨rfl, rfl, rfl⟩, (C8_fetch_retry _ _).2.1 rfl⟩

/-! ### Store combinator lemmas -/

/-- Evaluation of `findOneAndUpdate` on a store with no matching document. -/
theorem sfau_none (pred : TodoDoc → Bool) (upd : UpdateDoc) (now : Nat) :
    ∀ l : List TodoDoc, (∀ e ∈ l, pred e = false) →
      storeFindOneAndUpdate pred upd now l = .ok none := by
  intro l
  induction l with
  | nil => intro _; rfl
  | cons x xs ih =>
    intro h
    have hx := h x (by simp)
    simp [storeFindOneAndUpdate, hx, ih (fun e he => h e (by simp [he])),
      Except.map]

/-- Evaluation of `findOneAndUpdate` on a store whose unique matching
document is `d`: the cast update applies to `d` in place. -/
theorem sfau_found (pred : TodoDoc → Bool) (upd : UpdateDoc) (now : Nat) :
    ∀ (l : List TodoDoc) (d : TodoDoc), d ∈ l →
      (∀ e ∈ l, pred e = true → e = d) → pred d = true →
      ∃ pre post, l = pre ++ d :: post ∧ (∀ e ∈ pre, pred e = false) ∧
        storeFindOneAndUpdate pred upd now l =
          (applyUpdateDoc d upd now).map
            (fun x => some (x, pre ++ x :: post)) := by
  intro l
  induction l with
  | nil => intro d h; simp at h
  | cons a xs ih =>
    intro d hmem honly hd
    by_cases ha : pred a = true
    · have had : a = d := honly a (by simp) ha
      subst had
      exact ⟨[], xs, rfl, by simp, by simp [storeFindOneAndUpdate, ha]⟩
    · have hmem2 : d ∈ xs := by
        rcases List.mem_cons.mp hmem with h | h
        · exact absurd (h ▸ hd) ha
        · exact h
      obtain ⟨pre, post, hl, hpre, heq⟩ :=
        ih d hmem2 (fun e he hp => honly e (by simp [he]) hp) hd
      refine ⟨a :: pre, post, by simp [hl], ?_, ?_⟩
      · intro e he
        rcases List.mem_cons.mp he with h | h
        · simpa [h] using ha
        · exact hpre e h
      · have ha2 : pred a = false := by simpa using ha
        simp only [storeFindOneAndUpdate, ha2, Bool.false_eq_true, if_false,
          heq]
        cases h : applyUpdateDoc d upd now <;> simp [h, Except.map]

/-- Specification of a successful client-side cast of an update body. -/
theorem castUpdate_ok_parts (body : Payload) (upd : UpdateDoc)
    (h : castUpdate body = .ok upd) :
    updIdSet body = .ok upd.idSet ∧ updTitleSet body = .ok upd.title ∧
    updCompletedSet body = .ok upd.completed ∧
    updCreatedAtSet body = .ok upd.createdAt ∧
    upd.description = updDescriptionSet body := by
  unfold castUpdate at h
  split at h
  case _ i t c ca hi ht hc hca =>
    obtain rfl : _ = upd := by injection h
    exact ⟨hi, ht, hc, hca, rfl⟩
  all_goals exact absurd h (by simp)

/-- A server-accepted update is exactly the field-wise merge. -/
theorem applyUpdateDoc_ok (d : TodoDoc) (upd : UpdateDoc) (now : Nat)
    (d' : TodoDoc) (h : applyUpdateDoc d upd now = .ok d') :
    d' = mergeUpdate d upd now := by
  unfold applyUpdateDoc at h
  split at h
  · split at h
    · injection h with h2
      exact h2.symm
    · exact absurd h (by simp)
  · injection h with h2
    exact h2.symm

/-- A successful authenticated `PUT` on an owned document: the response
carries the updated document and the store replaces it in place. -/
theorem PUT_found (store : List TodoDoc) (d d' : TodoDoc) (u : String)
    (body : Payload) (now : Nat)
    (hmem : d ∈ store) (hnd : (store.map TodoDoc.id).Nodup)
    (hown : d.ownerId = some u) (hvalid : isValidObjectId d.id = true)
    (happ : todoApplyUpdate d body now = .ok d') :
    ∃ pre post, store = pre ++ d :: post ∧
      Api.TodoById.PUT (some u) d.id body now store
        = (okDocResp d', pre ++ d' :: post) := by
  have honly : ∀ e ∈ store, ownedFilter d.id u e = true → e = d := by
    intro e he hp
    have hid : e.id = d.id := by
      have h2 : e.id = d.id ∧ e.ownerId = some u := by
        simpa [ownedFilter] using hp
      exact h2.1
    exact List.inj_on_of_nodup_map hnd he hmem hid
  have hd : ownedFilter d.id u d = true := by simp [ownedFilter, hown]
  cases hc : castUpdate body with
  | error e =>
    unfold todoApplyUpdate at happ
    rw [hc] at happ
    simp at happ
  | ok upd =>
    have happ2 : applyUpdateDoc d upd now = .ok d' := by
      unfold todoApplyUpdate at happ
      rw [hc] at happ
      exact happ
    obtain ⟨pre, post, hl, _, heq⟩ :=
      sfau_found (ownedFilter d.id u) upd now store d hmem honly hd
    exact ⟨pre, post, hl,
      by simp [Api.TodoById.PUT, hvalid, hc, heq, happ2, Except.map]⟩

/-- Every field of a document produced by a successful update: `_id`,
`userId` and the handler timestamp are forced, and each unsupplied schema
path keeps its prior value. -/
theorem todoApplyUpdate_ok_fields (d : TodoDoc) (body : Payload) (now : Nat)
    (d' : TodoDoc) (h : todoApplyUpdate d body now = .ok d') :
    d'.id = d.id ∧ d'.ownerId = d.ownerId ∧ d'.updatedAt = now ∧
    (body.lookup "title" = none → d'.title = d.title) ∧
    (body.lookup "description" = none → d'.description = d.description) ∧
    (body.lookup "completed" = none → d'.completed = d.completed) ∧
    (body.lookup "createdAt" = none → d'.createdAt = d.createdAt) := by
  unfold todoApplyUpdate at h
  cases hc : castUpdate body with
  | error e =>
    rw [hc] at h
    simp at h
  | ok upd =>
    rw [hc] at h
    have h2 : applyUpdateDoc d upd now = .ok d' := h
    obtain ⟨hi, ht, hcmp, hca, hdesc⟩ := castUpdate_ok_parts body upd hc
    obtain rfl := applyUpdateDoc_ok d upd now d' h2
    refine ⟨rfl, rfl, rfl, ?_, ?_, ?_, ?_⟩
    · intro hT
      have hnone : upd.title = none := by
        simp only [updTitleSet, hT, Except.ok.injEq] at ht
        exact ht.symm
      simp [mergeUpdate, hnone]
    · intro hD
      have hnone : upd.description = none := by
        rw [hdesc]
        simp [updDescriptionSet, hD]
      simp [mergeUpdate, hnone]
    · intro hC
      have hnone : upd.completed = none := by
        simp only [updCompletedSet, hC, Except.ok.injEq] at hcmp
        exact hcmp.symm
      simp [mergeUpdate, hnone]
    · intro hCa
      have hnone : upd.createdAt = none := by
        simp only [updCreatedAtSet, hCa, Except.ok.injEq] at hca
        exact hca.symm
      simp [mergeUpdate, hnone]

/-- C1: with authentication enabled, for every principal `a` and every
stored todo owned by a different principal `b`, Read-by-id, Update and
Delete on that todo's id respond exactly as on a well-formed id matching
no document at all.  `GET` and `DELETE` answer 404 `Todo not found` with
the store unchanged; `PUT` gives, for every body, the very same response
on both ids — 404 `Todo not found` whenever the body passes mongoose's
client-side cast and update validation, and the identical 400 on both ids
otherwise — so ownership mismatch and nonexistence are indistinguishable
to the caller. -/
theorem C1_ownership_isolation (store : List TodoDoc) (a b : String)
    (d : TodoDoc) (idM : String) (body : Payload) (now : Nat)
    (hab : a ≠ b)
    (hmem : d ∈ store) (hnd : (store.map TodoDoc.id).Nodup)
    (hown : d.ownerId = some b)
    (hvalid : isValidObjectId d.id = true)
    (hMvalid : isValidObjectId idM = true)
    (hMabs : ∀ e ∈ store, e.id ≠ idM) :
    Api.TodoById.GET (some a) d.id store = notFoundResp ∧
    Api.TodoById.GET (some a) idM store = notFoundResp ∧
    Api.TodoById.DELETE (some a) d.id store = (notFoundResp, store) ∧
    Api.TodoById.DELETE (some a) idM store = (notFoundResp, store) ∧
    Api.TodoById.PUT (some a) d.id body now store
      = Api.TodoById.PUT (some a) idM body now store ∧
    (∀ upd, castUpdate body = .ok upd →
      Api.TodoById.PUT (some a) d.id body now store
        = (notFoundResp, store) ∧
      Api.TodoById.PUT (some a) idM body now store
        = (notFoundResp, store)) := by
  have hnone : ∀ e ∈ store, ownedFilter d.id a e = false := by
    intro e he
    cases hp : ownedFilter d.id a e with
    | false => rfl
    | true =>
      exfalso
      have h2 : e.id = d.id ∧ e.ownerId = some a := by
        simpa [ownedFilter] using hp
      have hed : e = d := List.inj_on_of_nodup_map hnd he hmem h2.1
      have hda : d.ownerId = some a := hed ▸ h2.2
      rw [hown] at hda
      exact hab (by injection hda with h3; exact h3.symm)
  have hnoneM : ∀ e ∈ store, ownedFilter idM a e = false := by
    intro e he
    simp [ownedFilter, hMabs e he]
  have hfind : store.find? (ownedFilter d.id a) = none :=
    List.find?_eq_none.mpr (fun e he => by simp [hnone e he])
  have hfindM : store.find? (ownedFilter idM a) = none :=
    List.find?_eq_none.mpr (fun e he => by simp [hnoneM e he])
  refine ⟨?_, ?_, ?_, ?_, ?_, ?_⟩
  · simp [Api.TodoById.GET, hvalid, hfind]
  · simp [Api.TodoById.GET, hMvalid, hfindM]
  · simp [Api.TodoById.DELETE, hvalid, hfind]
  · simp [Api.TodoById.DELETE, hMvalid, hfindM]
  · cases hc : castUpdate body with
    | error e => simp [Api.TodoById.PUT, hvalid, hMvalid, hc]
    | ok upd =>
      simp [Api.TodoById.PUT, hvalid, hMvalid, hc,
        sfau_none (ownedFilter d.id a) upd now store hnone,
        sfau_none (ownedFilter idM a) upd now store hnoneM]
  · intro upd hc
    constructor
    · simp [Api.TodoById.PUT, hvalid, hc,
        sfau_none (ownedFilter d.id a) upd now store hnone]
    · simp [Api.TodoById.PUT, hMvalid, hc,
        sfau_none (ownedFilter idM a) upd now store hnoneM]

/-- Witness for C1: a concrete store holding one todo owned by `bob`,
accessed by `alice`, against a concrete absent id — including the
identical-response conjunct at a body whose `completed` value does not
cast, and the 404 conjunct at a body that casts. -/
theorem C1_witness :
    Api.TodoById.GET (some "alice") "bbbbbbbbbbbb"
      [⟨"bbbbbbbbbbbb", "x", none, false, 1, 1, some "bob"⟩] = notFoundResp ∧
    Api.TodoById.GET (some "alice") "cccccccccccc"
      [⟨"bbbbbbbbbbbb", "x", none, false, 1, 1, some "bob"⟩] = notFoundResp ∧
    Api.TodoById.DELETE (some "alice") "bbbbbbbbbbbb"
      [⟨"bbbbbbbbbbbb", "x", none, false, 1, 1, some "bob"⟩]
      = (notFoundResp, [⟨"bbbbbbbbbbbb", "x", none, false, 1, 1, some "bob"⟩]) ∧
    Api.TodoById.DELETE (some "alice") "cccccccccccc"
      [⟨"bbbbbbbbbbbb", "x", none, false, 1, 1, some "bob"⟩]
      = (notFoundResp, [⟨"bbbbbbbbbbbb", "x", none, false, 1, 1, some "bob"⟩]) ∧
    Api.TodoById.PUT (some "alice") "bbbbbbbbbbbb"
      [("completed", BVal.str "banana")] 5
      [⟨"bbbbbbbbbbbb", "x", none, false, 1, 1, some "bob"⟩]
      = Api.TodoById.PUT (some "alice") "cccccccccccc"
          [("completed", BVal.str "banana")] 5
          [⟨"bbbbbbbbbbbb", "x", none, false, 1, 1, some "bob"⟩] ∧
    Api.TodoById.PUT (some "alice") "bbbbbbbbbbbb" [] 5
      [⟨"bbbbbbbbbbbb", "x", none, false, 1, 1, some "bob"⟩]
      = (notFoundResp, [⟨"bbbbbbbbbbbb", "x", none, false, 1, 1, some "bob"⟩]) ∧
    Api.TodoById.PUT (some "alice") "cccccccccccc" [] 5
      [⟨"bbbbbbbbbbbb", "x", none, false, 1, 1, some "bob"⟩]
      = (notFoundResp, [⟨"bbbbbbbbbbbb", "x", none, false, 1, 1, some "bob"⟩]) := by
  have h1 := C1_ownership_isolation
    [⟨"bbbbbbbbbbbb", "x", none, false, 1, 1, some "bob"⟩]
    "alice" "bob" ⟨"bbbbbbbbbbbb", "x", none, false, 1, 1, some "bob"⟩
    "cccccccccccc" [("completed", BVal.str "banana")] 5 (by decide)
    (by decide) (by decide) (by decide) (by decide) (by decide) (by decide)
  have h2 := C1_ownership_isolation
    [⟨"bbbbbbbbbbbb", "x", none, false, 1, 1, some "bob"⟩]
    "alice" "bob" ⟨"bbbbbbbbbbbb", "x", none, false, 1, 1, some "bob"⟩
    "cccccccccccc" [] 5 (by decide)
    (by decide) (by decide) (by decide) (by decide) (by decide) (by decide)
  have h3 := h2.2.2.2.2.2
    { idSet := none, title := none, description := none, completed := none,
      createdAt := none } rfl
  exact ⟨h1.1, h1.2.1, h1.2.2.1, h1.2.2.2.1, h1.2.2.2.2.1, h3.1, h3.2⟩

/-- C2 counterexample: the claim says a successful Update leaves
`createdAt` unchanged even when the payload contains it.  `createdAt` is
a declared schema path and nothing marks it immutable, so the `PUT`
handler's `{ ...body, updatedAt: Date.now() }` update document overwrites
it: a payload supplying `createdAt = 99` successfully updates a document
whose `createdAt` was `5`, and the stored/returned `createdAt` is `99`. -/
theorem C2_counterexample :
    (Api.TodoById.PUT (some "u1") "aaaaaaaaaaaa" [("createdAt", BVal.num 99)]
        50 [⟨"aaaaaaaaaaaa", "t", none, false, 5, 5, some "u1"⟩]).1
      = okDocResp ⟨"aaaaaaaaaaaa", "t", none, false, 99, 50, some "u1"⟩ ∧
    (⟨"aaaaaaaaaaaa", "t", none, false, 99, 50, some "u1"⟩ : TodoDoc).createdAt
      ≠ (⟨"aaaaaaaaaaaa", "t", none, false, 5, 5, some "u1"⟩ : TodoDoc).createdAt := by
  decide

/-- C2 amended: a successful Update changes only the supplied schema
fields plus `updatedAt`: `id` and `ownerId` are never mutable through this
operation even if present in the payload, every unsupplied field keeps its
prior value (in particular `createdAt` is preserved whenever the payload
does not supply it), and `updatedAt` is always refreshed to the handler's
current time. -/
theorem C2_amended_frame (store : List TodoDoc) (d d' : TodoDoc) (u : String)
    (body : Payload) (now : Nat)
    (hmem : d ∈ store) (hnd : (store.map TodoDoc.id).Nodup)
    (hown : d.ownerId = some u) (hvalid : isValidObjectId d.id = true)
    (happ : todoApplyUpdate d body now = .ok d') :
    (Api.TodoById.PUT (some u) d.id body now store).1 = okDocResp d' ∧
    d'.id = d.id ∧ d'.ownerId = d.ownerId ∧ d'.updatedAt = now ∧
    (body.lookup "title" = none → d'.title = d.title) ∧
    (body.lookup "description" = none → d'.description = d.description) ∧
    (body.lookup "completed" = none → d'.completed = d.completed) ∧
    (body.lookup "createdAt" = none → d'.createdAt = d.createdAt) := by
  obtain ⟨pre, post, hl, hput⟩ :=
    PUT_found store d d' u body now hmem hnd hown hvalid happ
  have hf := todoApplyUpdate_ok_fields d body now d' happ
  exact ⟨by rw [hput], hf.1, hf.2.1, hf.2.2.1, hf.2.2.2.1, hf.2.2.2.2.1,
    hf.2.2.2.2.2.1, hf.2.2.2.2.2.2⟩

/-- Witness for the amended C2: a toggle-style payload updates only
`completed` and `updatedAt` on a concrete owned document. -/
theorem C2_amended_witness :
    (Api.TodoById.PUT (some "u1") "aaaaaaaaaaaa" [("completed", BVal.bool true)]
        9 [⟨"aaaaaaaaaaaa", "t", none, false, 5, 5, some "u1"⟩]).1
      = okDocResp ⟨"aaaaaaaaaaaa", "t", none, true, 5, 9, some "u1"⟩ ∧
    (⟨"aaaaaaaaaaaa", "t", none, true, 5, 9, some "u1"⟩ : TodoDoc).createdAt
      = (⟨"aaaaaaaaaaaa", "t", none, false, 5, 5, some "u1"⟩ : TodoDoc).createdAt :=
  ⟨(C2_amended_frame [⟨"aaaaaaaaaaaa", "t", none, false, 5, 5, some "u1"⟩]
      ⟨"aaaaaaaaaaaa", "t", none, false, 5, 5, some "u1"⟩
      ⟨"aaaaaaaaaaaa", "t", none, true, 5, 9, some "u1"⟩
      "u1" [("completed", BVal.bool true)] 9
      (by decide) (by decide) (by decide) (by decide) rfl).1,
   (C2_amended_frame [⟨"aaaaaaaaaaaa", "t", none, false, 5, 5, some "u1"⟩]
      ⟨"aaaaaaaaaaaa", "t", none, false, 5, 5, some "u1"⟩
      ⟨"aaaaaaaaaaaa", "t", none, true, 5, 9, some "u1"⟩
      "u1" [("completed", BVal.bool true)] 9
      (by decide) (by decide) (by decide) (by decide)
      rfl).2.2.2.2.2.2.2 (by decide)⟩

/-- The update body `{ completed: !todo.completed }` sent by
`handleToggleComplete` for the entity the client currently displays. -/
def toggleBody (t : TodoDoc) : Payload :=
  [("completed", BVal.bool (!t.completed))]

/-- C9: toggling `completed` twice through the authenticated `PUT`
handler — each request carrying `completed := !current` as
`handleToggleComplete` computes it from the server-confirmed entity —
returns the stored entity to a state equal to the original in every field
except `updatedAt`, which has strictly advanced. -/
theorem C9_toggle_twice (store : List TodoDoc) (d : TodoDoc) (u : String)
    (now1 now2 : Nat)
    (hmem : d ∈ store) (hnd : (store.map TodoDoc.id).Nodup)
    (hown : d.ownerId = some u) (hvalid : isValidObjectId d.id = true)
    (h1 : d.updatedAt < now1) (h12 : now1 ≤ now2) :
    ∃ d2 : TodoDoc,
      (Api.TodoById.PUT (some u) d.id (toggleBody d) now1 store).1
        = okDocResp { d with completed := !d.completed, updatedAt := now1 } ∧
      (Api.TodoById.PUT (some u) d.id
          (toggleBody { d with completed := !d.completed, updatedAt := now1 })
          now2
          (Api.TodoById.PUT (some u) d.id (toggleBody d) now1 store).2).1
        = okDocResp d2 ∧
      d2.title = d.title ∧ d2.description = d.description ∧
      d2.completed = d.completed ∧ d2.createdAt = d.createdAt ∧
      d2.id = d.id ∧ d2.ownerId = d.ownerId ∧
      d.updatedAt < d2.updatedAt := by
  have happ1 : todoApplyUpdate d (toggleBody d) now1
      = .ok { d with completed := !d.completed, updatedAt := now1 } := rfl
  obtain ⟨pre, post, hl, hput1⟩ :=
    PUT_found store d _ u (toggleBody d) now1 hmem hnd hown hvalid happ1
  have happ2 : todoApplyUpdate
      { d with completed := !d.completed, updatedAt := now1 }
      (toggleBody { d with completed := !d.completed, updatedAt := now1 })
      now2
      = .ok { d with completed := !(!d.completed), updatedAt := now2 } := rfl
  have hd2 : ({ d with completed := !(!d.completed), updatedAt := now2 }
      : TodoDoc) = { d with updatedAt := now2 } := by
    simp [Bool.not_not]
  rw [hd2] at happ2
  have hmap : ((pre
        ++ ({ d with completed := !d.completed, updatedAt := now1 }
          : TodoDoc) :: post).map TodoDoc.id)
      = ((pre ++ d :: post).map TodoDoc.id) := by simp
  have hnd1 : ((pre
        ++ ({ d with completed := !d.completed, updatedAt := now1 }
          : TodoDoc) :: post).map TodoDoc.id).Nodup := by
    rw [hmap, ← hl]
    exact hnd
  obtain ⟨pre2, post2, hl2, hput2⟩ :=
    PUT_found
      (pre ++ ({ d with completed := !d.completed, updatedAt := now1 }
        : TodoDoc) :: post)
      { d with completed := !d.completed, updatedAt := now1 }
      { d with updatedAt := now2 } u
      (toggleBody { d with completed := !d.completed, updatedAt := now1 })
      now2
      (List.mem_append_right _ (List.mem_cons_self _ _)) hnd1 hown hvalid happ2
  refine ⟨{ d with updatedAt := now2 }, ?_, ?_, rfl, rfl, rfl, rfl, rfl, rfl,
    Nat.lt_of_lt_of_le h1 h12⟩
  · rw [hput1]
  · rw [hput1]
    exact congrArg Prod.fst hput2

/-- Witness for C9: double toggle on a concrete owned document. -/
theorem C9_witness :
    ∃ d2 : TodoDoc,
      (Api.TodoById.PUT (some "u1") "aaaaaaaaaaaa"
          [("completed", BVal.bool true)] 7
          [⟨"aaaaaaaaaaaa", "t", none, false, 3, 3, some "u1"⟩]).1
        = okDocResp ⟨"aaaaaaaaaaaa", "t", none, true, 3, 7, some "u1"⟩ ∧
      (Api.TodoById.PUT (some "u1") "aaaaaaaaaaaa"
          [("completed", BVal.bool false)] 9
          (Api.TodoById.PUT (some "u1") "aaaaaaaaaaaa"
            [("completed", BVal.bool true)] 7
            [⟨"aaaaaaaaaaaa", "t", none, false, 3, 3, some "u1"⟩]).2).1
        = okDocResp d2 ∧
      d2.title = "t" ∧ d2.description = none ∧
      d2.completed = false ∧ d2.createdAt = 3 ∧
      d2.id = "aaaaaaaaaaaa" ∧ d2.ownerId = some "u1" ∧
      (3 : Nat) < d2.updatedAt :=
  C9_toggle_twice [⟨"aaaaaaaaaaaa", "t", none, false, 3, 3, some "u1"⟩]
    ⟨"aaaaaaaaaaaa", "t", none, false, 3, 3, some "u1"⟩ "u1" 7 9
    (by decide) (by decide) (by decide) (by decide) (by decide) (by decide)

/-- Reading any key other than the overridden one sees the original body. -/
theorem lookup_assocSet_ne (m : Payload) (k k' : String) (v : BVal)
    (h : k' ≠ k) : (assocSet m k v).lookup k' = m.lookup k' := by
  have hb : (k' == k) = false := beq_eq_false_iff_ne.mpr h
  simp [assocSet, List.lookup, hb]

/-- C7: for every authenticated principal, List returns exactly the
stored todos whose owner field equals the principal's identifier — the
payload is a permutation of that filtered set, ordered by `createdAt`
descending; when no valid principal is resolved from the request
(header-first, then cookie), List answers 401 without querying the
store. -/
theorem C7_list_owned_sorted (verify : String → Option String)
    (authHeader cookieHeader : Option String) (store : List TodoDoc) :
    (∀ u, Auth.getUserFromToken verify
        (Auth.getTokenFromRequest authHeader cookieHeader) = some u →
      Api.Todos.GET verify authHeader cookieHeader store =
        ({ status := 200, success := true,
           data := some (.list (List.insertionSort createdDesc
             (store.filter (fun e => e.ownerId == some u)))),
           error := none }, true) ∧
      (List.insertionSort createdDesc
          (store.filter (fun e => e.ownerId == some u))).Perm
        (store.filter (fun e => e.ownerId == some u)) ∧
      (List.insertionSort createdDesc
          (store.filter (fun e => e.ownerId == some u))).Sorted createdDesc) ∧
    (Auth.getUserFromToken verify
        (Auth.getTokenFromRequest authHeader cookieHeader) = none →
      Api.Todos.GET verify authHeader cookieHeader store
        = (unauthorizedResp, false)) := by
  constructor
  · intro u hu
    exact ⟨by simp [Api.Todos.GET, hu], List.perm_insertionSort _ _,
      List.sorted_insertionSort _ _⟩
  · intro h0
    simp [Api.Todos.GET, h0]

/-- Witness for C7: a bearer-token request over a concrete three-document
store returns exactly the two documents owned by the caller, newest
first. -/
theorem C7_witness :
    Api.Todos.GET (fun t => if t = "tok1" then some "u1" else none)
      (some "Bearer tok1") none
      [⟨"aaaaaaaaaaaa", "a", none, false, 1, 1, some "u1"⟩,
       ⟨"cccccccccccc", "c", none, false, 5, 5, some "u2"⟩,
       ⟨"bbbbbbbbbbbb", "b", none, true, 2, 2, some "u1"⟩]
      = ({ status := 200, success := true,
           data := some (.list
             [⟨"bbbbbbbbbbbb", "b", none, true, 2, 2, some "u1"⟩,
              ⟨"aaaaaaaaaaaa", "a", none, false, 1, 1, some "u1"⟩]),
           error := none }, true) ∧
    ([⟨"bbbbbbbbbbbb", "b", none, true, 2, 2, some "u1"⟩,
      ⟨"aaaaaaaaaaaa", "a", none, false, 1, 1, some "u1"⟩]
        : List TodoDoc).Sorted createdDesc ∧
    Api.Todos.GET (fun t => if t = "tok1" then some "u1" else none)
      none none
      [⟨"aaaaaaaaaaaa", "a", none, false, 1, 1, some "u1"⟩]
      = (unauthorizedResp, false) := by
  have h := (C7_list_owned_sorted
    (fun t => if t = "tok1" then some "u1" else none)
    (some "Bearer tok1") none
    [⟨"aaaaaaaaaaaa", "a", none, false, 1, 1, some "u1"⟩,
     ⟨"cccccccccccc", "c", none, false, 5, 5, some "u2"⟩,
     ⟨"bbbbbbbbbbbb", "b", none, true, 2, 2, some "u1"⟩]).1 "u1" (by decide)
  have h2 := (C7_list_owned_sorted
    (fun t => if t = "tok1" then some "u1" else none)
    none none
    [⟨"aaaaaaaaaaaa", "a", none, false, 1, 1, some "u1"⟩]).2 (by decide)
  exact ⟨h.1, h.2.2, h2⟩

/-- C3: the `POST` handler merges `userId: user.userId` into the
document passed to `Todo.create`, and the response is 201 with the
persisted entity and its generated id — but `TodoSchema` declares no
`userId` path, so strict mode drops the stamp: at this concrete input the
persisted entity carries no owner field at all, contradicting the claim
that its owner equals the resolved principal.  (Any client-supplied owner
value is indeed discarded.) -/
theorem C3_ownerId_not_persisted :
    Api.Todos.POST (some "u1")
      [("title", BVal.str "Buy milk"), ("userId", BVal.str "attacker")]
      10 "aaaaaaaaaaaa" []
      = ({ status := 201, success := true,
           data := some (.doc ⟨"aaaaaaaaaaaa", "Buy milk", none, false, 10, 10, none⟩),
           error := none },
         [⟨"aaaaaaaaaaaa", "Buy milk", none, false, 10, 10, none⟩]) ∧
    (⟨"aaaaaaaaaaaa", "Buy milk", none, false, 10, 10, none⟩
      : TodoDoc).ownerId = none ∧
    (⟨"aaaaaaaaaaaa", "Buy milk", none, false, 10, 10, none⟩
      : TodoDoc).ownerId ≠ some "u1" := by
  decide

/-- C4: Create fails with a 400 validation error for every payload
whose title is empty or whitespace-only, leaving the collection unchanged;
for every payload with a non-empty trimmed title (and schema-typed
`completed`/`createdAt` fields, per the §6 body shape), Create succeeds
with 201, appends exactly the returned entity, the entity carries the
trimmed title, and `completed` is `true` exactly when the payload
explicitly set it to `true`. -/
theorem C4_create_validation :
    (∀ (u : String) (body : Payload) (s : String) (now : Nat)
        (newId : String) (store : List TodoDoc),
      body.lookup "title" = some (.str s) → jsTrim s = "" →
      Api.Todos.POST (some u) body now newId store
        = ({ status := 400, success := false, data := none,
             error := some "ValidationError: title is required" }, store)) ∧
    (∀ (u : String) (body : Payload) (s : String) (now : Nat)
        (newId : String) (store : List TodoDoc),
      body.lookup "title" = some (.str s) → jsTrim s ≠ "" →
      (match body.lookup "completed" with
        | none => True | some (.bool _) => True | some _ => False) →
      (match body.lookup "createdAt" with
        | none => True | some (.num _) => True | some _ => False) →
      ∃ d : TodoDoc,
        Api.Todos.POST (some u) body now newId store
          = ({ status := 201, success := true, data := some (.doc d),
               error := none }, store ++ [d]) ∧
        d.title = jsTrim s ∧
        (d.completed = true ↔ body.lookup "completed"
          = some (.bool true))) := by
  constructor
  · intro u body s now newId store ht hs
    have hT : createTitle (assocSet body "userId" (.str u))
        = .error "ValidationError: title is required" := by
      rw [createTitle, lookup_assocSet_ne body _ _ _ (by decide), ht]
      simp [castString, hs]
    cases hc : createCompleted (assocSet body "userId" (.str u)) <;>
      cases hca : createCreatedAt (assocSet body "userId" (.str u)) now <;>
        simp [Api.Todos.POST, todoCreate, hT, hc, hca]
  · intro u body s now newId store ht hs hcomp hca
    have hT : createTitle (assocSet body "userId" (.str u)) = .ok (jsTrim s) := by
      rw [createTitle, lookup_assocSet_ne body _ _ _ (by decide), ht]
      simp [castString, hs]
    obtain ⟨b, hC, hbiff⟩ : ∃ b,
        createCompleted (assocSet body "userId" (.str u)) = .ok b ∧
        (b = true ↔ body.lookup "completed" = some (.bool true)) := by
      rw [createCompleted, lookup_assocSet_ne body _ _ _ (by decide)]
      cases hcl : body.lookup "completed" with
      | none => exact ⟨false, rfl, by simp⟩
      | some v =>
        cases v with
        | bool b => exact ⟨b, rfl, by cases b <;> simp⟩
        | str sv => exact absurd hcomp (by simp [hcl])
        | num nv => exact absurd hcomp (by simp [hcl])
    obtain ⟨ca, hCa⟩ : ∃ ca,
        createCreatedAt (assocSet body "userId" (.str u)) now = .ok ca := by
      rw [createCreatedAt, lookup_assocSet_ne body _ _ _ (by decide)]
      cases hcal : body.lookup "createdAt" with
      | none => exact ⟨now, rfl⟩
      | some v =>
        cases v with
        | num nv => exact ⟨nv, rfl⟩
        | str sv => exact absurd hca (by simp [hcal])
        | bool bv => exact absurd hca (by simp [hcal])
    refine ⟨⟨newId, jsTrim s,
        createDescription (assocSet body "userId" (.str u)), b, ca, now, none⟩,
      ?_, rfl, hbiff⟩
    simp [Api.Todos.POST, todoCreate, hT, hC, hCa]

/-- Witness for C4: a whitespace-only title is rejected with the store
unchanged, and a padded title is stored trimmed with `completed = false`. -/
theorem C4_witness :
    Api.Todos.POST (some "u1") [("title", BVal.str "   ")] 3 "aaaaaaaaaaaa" []
      = ({ status := 400, success := false, data := none,
           error := some "ValidationError: title is required" }, []) ∧
    (∃ d : TodoDoc,
      Api.Todos.POST (some "u1") [("title", BVal.str " Buy milk ")] 3
          "aaaaaaaaaaaa" []
        = ({ status := 201, success := true, data := some (.doc d),
             error := none }, [] ++ [d]) ∧
      d.title = jsTrim " Buy milk " ∧
      (d.completed = true ↔
        ([("title", BVal.str " Buy milk ")] : Payload).lookup "completed"
          = some (.bool true))) :=
  ⟨C4_create_validation.1 "u1" [("title", BVal.str "   ")] "   " 3
      "aaaaaaaaaaaa" [] rfl (by decide),
   C4_create_validation.2 "u1" [("title", BVal.str " Buy milk ")] " Buy milk "
      3 "aaaaaaaaaaaa" [] rfl (by decide) trivial trivial⟩

/-- A document produced by `Todo.create` never carries an owner field. -/
theorem todoCreate_ok_ownerId (body : Payload) (now : Nat) (newId : String)
    (d : TodoDoc) (h : todoCreate body now newId = .ok d) :
    d.ownerId = none := by
  unfold todoCreate at h
  split at h
  · injection h with h'
    subst h'
    rfl
  all_goals exact absurd h (by simp)

/-- C10 counterexample: the claim says every persisted entity
contains exactly the fields `title`, `description`, `completed`,
`createdAt`, `updatedAt` (plus `_id`).  A create payload that does not
supply `description` persists a document without a `description` field at
all (an undefined optional path is not stored), and the schema keeps the
default `versionKey`, so the document additionally carries the mongoose
version key `__v` — the stored field set is neither a superset nor a
subset of the claimed one; the undeclared `priority` field is dropped as
expected. -/
theorem C10_counterexample :
    (todoCreate [("title", BVal.str "x"), ("priority", BVal.str "high")] 5
        "aaaaaaaaaaaa").map docFields
      = .ok ["_id", "title", "completed", "createdAt", "updatedAt", "__v"] ∧
    "description" ∉
      (["_id", "title", "completed", "createdAt", "updatedAt", "__v"]
        : List String) ∧
    "__v" ∉
      (["_id", "title", "description", "completed", "createdAt", "updatedAt"]
        : List String) := by
  refine ⟨?_, ?_, ?_⟩
  · rfl
  · decide
  · decide

/-- C10 amended: every entity persisted through the Todo model
contains at most the declared schema paths plus the store-generated id
and the mongoose version key `__v` that the default `versionKey` stamps
(`description` being present exactly when supplied): no other payload
field — `priority`, `category`, `tags`, or the owner identifier
`userId` — is ever part of the stored document, and the field-set bound is
preserved by every successful update. -/
theorem C10_schema_fields (body : Payload) (now : Nat) (newId : String)
    (d : TodoDoc) (h : todoCreate body now newId = .ok d) :
    docFields d ⊆ "_id" :: "__v" :: schemaPaths ∧
    "priority" ∉ docFields d ∧ "category" ∉ docFields d ∧
    "tags" ∉ docFields d ∧ "userId" ∉ docFields d ∧
    (∀ (body' : Payload) (now' : Nat) (d' : TodoDoc),
      todoApplyUpdate d body' now' = .ok d' →
      docFields d' ⊆ "_id" :: "__v" :: schemaPaths ∧
      "userId" ∉ docFields d') := by
  have hown : d.ownerId = none := todoCreate_ok_ownerId body now newId d h
  have hsub : ∀ e : TodoDoc, e.ownerId = none →
      docFields e ⊆ "_id" :: "__v" :: schemaPaths ∧
      "userId" ∉ docFields e := by
    intro e he
    cases hd : e.description with
    | none =>
      constructor
      · intro x hx
        simp [docFields, he, hd] at hx
        rcases hx with rfl | rfl | rfl | rfl | rfl | rfl <;> decide
      · simp [docFields, he, hd]
    | some v =>
      constructor
      · intro x hx
        simp [docFields, he, hd] at hx
        rcases hx with rfl | rfl | rfl | rfl | rfl | rfl | rfl <;> decide
      · simp [docFields, he, hd]
  refine ⟨(hsub d hown).1, ?_, ?_, ?_, (hsub d hown).2, ?_⟩
  · cases hd : d.description <;> simp [docFields, hown, hd]
  · cases hd : d.description <;> simp [docFields, hown, hd]
  · cases hd : d.description <;> simp [docFields, hown, hd]
  · intro body' now' d' h'
    have hf := todoApplyUpdate_ok_fields d body' now' d' h'
    have hown' : d'.ownerId = none := by rw [hf.2.1, hown]
    exact hsub d' hown'

/-- Witness for the amended C10: a payload carrying `priority` persists a
document whose field set contains neither `priority` nor `userId`. -/
theorem C10_witness :
    "userId" ∉ docFields ⟨"aaaaaaaaaaaa", "x", none, false, 5, 5, none⟩ ∧
    "priority" ∉ docFields ⟨"aaaaaaaaaaaa", "x", none, false, 5, 5, none⟩ :=
  ⟨(C10_schema_fields [("title", BVal.str "x"), ("priority", BVal.str "high")]
      5 "aaaaaaaaaaaa" _ rfl).2.2.2.2.1,
   (C10_schema_fields [("title", BVal.str "x"), ("priority", BVal.str "high")]
      5 "aaaaaaaaaaaa" _ rfl).2.1⟩
